import Mathlib

/-!
# Todo items REST service (`main.go`)

A shallow embedding of the five request handlers of `main.go`
(`CreateItem`, `GetItems`, `GetItemByID`, `UpdateItemByID`, `DeleteItemByID`)
together with the parts of the libraries they call: `strconv.Atoi`, the
request binding of gin, and the statements that GORM sends to the
`todo_items` table.

The database handle `*gorm.DB` becomes an explicit value `DB` that the
mutating handlers return next to their response.  A failure of the storage
engine itself (lost connection, ...) is an input of every statement,
`fault : Option String`; the wall clock of the engine is the input `now`.
-/

deriving instance DecidableEq for Except

namespace TodoApi

/-! ## Data model -/

/-- The struct `TodoItem` (lines 14-21); timestamps are seconds, `none` is a nil pointer. -/
structure TodoItem where
  Id : Int
  Title : String
  Description : String
  Status : String
  CreatedAt : Option Nat
  UpdatedAt : Option Nat
  deriving DecidableEq, Repr

/-- The struct `TodoItemCreation` (lines 27-31). -/
structure TodoItemCreation where
  Id : Int
  Title : String
  Description : String
  deriving DecidableEq, Repr

/-- The struct `TodoItemUpdate` (lines 37-41); `none` is a nil `*string`. -/
structure TodoItemUpdate where
  Title : Option String
  Description : Option String
  Status : String
  deriving DecidableEq, Repr

/-- The struct `Paging` (lines 91-95). -/
structure Paging where
  Page : Int
  Limit : Int
  Total : Int
  deriving DecidableEq, Repr

/-! ## `strconv` -/

/-- The two sentinel errors of `strconv`: `ErrSyntax` and `ErrRange`. -/
inductive NumErrKind where
  | ErrSyntax
  | ErrRange
  deriving DecidableEq, Repr

/-- The error value `*strconv.NumError`. -/
structure NumError where
  Func : String
  Num : String
  Err : NumErrKind
  deriving DecidableEq, Repr

/-- Largest `uint64`. -/
def maxUint64 : Nat := 2 ^ 64 - 1

/-- The bound `1 << 63` that `ParseInt` checks a 64-bit magnitude against. -/
def intCutoff : Nat := 2 ^ 63

/-- The digit loop of `strconv.ParseUint(s, 10, 64)`: a byte that is not a decimal
digit is a syntax error, a value that leaves `uint64` is a range error, whichever
comes first from the left. -/
def parseUintLoop : List Char → Nat → Except NumErrKind Nat
  | [], n => .ok n
  | c :: cs, n =>
    if c.isDigit then
      if maxUint64 / 10 + 1 ≤ n then .error .ErrRange
      else
        let n1 := n * 10 + (c.toNat - 48)
        if maxUint64 < n1 then .error .ErrRange else parseUintLoop cs n1
    else .error .ErrSyntax

/-- The function `strconv.ParseUint(s, 10, 64)` on the bytes of `s`, which is not empty
in a successful parse. -/
def parseUint (s : List Char) : Except NumErrKind Nat :=
  match s with
  | [] => .error .ErrSyntax
  | _ => parseUintLoop s 0

/-- The sign and range handling of `strconv.ParseInt(s, 10, 64)`.  A range error of
`ParseUint` leaves the magnitude at `maxUint64`, which the cutoff test then rejects. -/
def parseIntChars (s : List Char) : Except NumErrKind Int :=
  match s with
  | [] => .error .ErrSyntax
  | c :: cs =>
    let neg := c == '-'
    let rest := if c == '+' || c == '-' then cs else c :: cs
    match parseUint rest with
    | .error .ErrSyntax => .error .ErrSyntax
    | .error .ErrRange => .error .ErrRange
    | .ok un =>
      if !neg && intCutoff ≤ un then .error .ErrRange
      else if neg && intCutoff < un then .error .ErrRange
      else .ok (if neg then -(un : Int) else (un : Int))

/-- The function `strconv.ParseInt(s, 10, 64)`. -/
def ParseInt (s : String) : Except NumError Int :=
  match parseIntChars s.data with
  | .ok n => .ok n
  | .error k => .error ⟨"ParseInt", s, k⟩

/-- The function `strconv.Atoi`: `ParseInt(s, 10, 0)` with the error renamed to `Atoi`
(its short-string fast path computes the same result). -/
def Atoi (s : String) : Except NumError Int :=
  match parseIntChars s.data with
  | .ok n => .ok n
  | .error k => .error ⟨"Atoi", s, k⟩

/-! ## Errors and responses -/

/-- The error values a handler can put into a response through `err.Error()`. -/
inductive Error where
  | num (e : NumError)
  | bind (msg : String)
  | ErrRecordNotFound
  | storage (msg : String)
  deriving DecidableEq, Repr

/-- The values the handlers put into a response body. -/
inductive Payload where
  | msg (e : Error)
  | int (n : Int)
  | bool (b : Bool)
  | item (i : TodoItem)
  | items (l : List TodoItem)
  deriving DecidableEq, Repr

/-- A response body: `H key v` is the one-key object `gin.H` with `key` mapped to `v`, `raw v` is
the bare value `v`. -/
inductive Body where
  | H (key : String) (v : Payload)
  | raw (v : Payload)
  deriving DecidableEq, Repr

/-- What `ctx.JSON(code, obj)` writes. -/
structure Response where
  status : Nat
  body : Body
  deriving DecidableEq, Repr

def StatusOK : Nat := 200
def StatusBadRequest : Nat := 400
def StatusNotFound : Nat := 404

/-! ## Request binding (gin) -/

/-- A request body that decoded as a JSON object, seen through the keys the handlers
bind; `none` is a key that is absent or `null`. -/
structure JSONBody where
  title : Option String
  description : Option String
  status : Option String
  deriving DecidableEq, Repr

/-- The call `ctx.ShouldBind(&data)` for `TodoItemCreation`: `Id` carries the tag `json:"-"`
and is never read from the body; a key that is absent leaves the zero value. -/
def ShouldBindCreation (body : Except String JSONBody) : Except Error TodoItemCreation :=
  match body with
  | .error m => .error (.bind m)
  | .ok j => .ok ⟨0, j.title.getD "", j.description.getD ""⟩

/-- The call `ctx.ShouldBind(&data)` for `TodoItemUpdate`: the two pointer fields stay nil
when their key is absent, `Status` is a plain string and stays empty. -/
def ShouldBindUpdate (body : Except String JSONBody) : Except Error TodoItemUpdate :=
  match body with
  | .error m => .error (.bind m)
  | .ok j => .ok ⟨j.title, j.description, j.status.getD ""⟩

/-- The form mapping of gin for an integer field, `setIntField`: the empty value counts
as `0`, anything else goes through `strconv.ParseInt`. -/
def setIntField (val : String) : Except Error Int :=
  match ParseInt (if val = "" then "0" else val) with
  | .ok n => .ok n
  | .error e => .error (.num e)

/-- The form mapping of one integer field with tag `tag`: the first value of the
key in the query string, the field is left at zero when the key is absent. -/
def mapFormInt (query : List (String × String)) (tag : String) : Except Error Int :=
  match query.lookup tag with
  | none => .ok 0
  | some v => setIntField v

/-- The call `ctx.ShouldBind(&data)` for `Paging` on a GET request: the three fields are
mapped in order, and all three carry the tag `form:"page"`. -/
def ShouldBindPaging (query : List (String × String)) : Except Error Paging :=
  match mapFormInt query "page" with
  | .error e => .error e
  | .ok page =>
    match mapFormInt query "page" with
    | .error e => .error e
    | .ok limit =>
      match mapFormInt query "page" with
      | .error e => .error e
      | .ok total => .ok ⟨page, limit, total⟩

/-! ## The table `todo_items` behind `*gorm.DB` -/

/-- The database: the rows of `todo_items` in storage order, the next value of the
`AUTO_INCREMENT` counter of `id`, and the column default of `status`. -/
structure DB where
  rows : List TodoItem
  autoInc : Int
  statusDefault : String
  deriving DecidableEq, Repr

/-- Modelled from the spec: the definition of the table `todo_items` is not in the
repository.  Following sections 3, 4.2 and 6 of the specification, `id` is the
generated primary key, `status` takes the column default, and the storage layer
sets `created_at` and `updated_at` of a new row to the current time. -/
def newRow (db : DB) (now : Nat) (id : Int) (data : TodoItemCreation) : TodoItem :=
  ⟨id, data.Title, data.Description, db.statusDefault, some now, some now⟩

/-- The statement of `db.Create(&data)`: an `INSERT` of `title` and `description`; a zero `Id` is
left to the counter and written back into `data`, and a value of `id` that is already
stored violates the primary key. -/
def DB.Create (db : DB) (now : Nat) (fault : Option String) (data : TodoItemCreation) :
    Except Error (TodoItemCreation × DB) :=
  match fault with
  | some m => .error (.storage m)
  | none =>
    let id := if data.Id = 0 then db.autoInc else data.Id
    if db.rows.any (fun r => r.Id == id) then .error (.storage "Duplicate entry for key PRIMARY")
    else
      .ok ({ data with Id := id },
           { db with rows := db.rows ++ [newRow db now id data], autoInc := max db.autoInc (id + 1) })

/-- The order of `Order("id desc")`. -/
def idDesc (a b : TodoItem) : Prop := b.Id ≤ a.Id

instance : DecidableRel idDesc := fun a b => inferInstanceAs (Decidable (b.Id ≤ a.Id))

instance : IsTotal TodoItem idDesc := ⟨fun a b => Int.le_total b.Id a.Id⟩

instance : IsTrans TodoItem idDesc := ⟨fun _ _ _ hab hbc => Int.le_trans hbc hab⟩

/-- The statement of `db.Order("id desc").Find(&listItems)`: every row, by `id` descending. -/
def DB.Find (db : DB) (fault : Option String) : Except Error (List TodoItem) :=
  match fault with
  | some m => .error (.storage m)
  | none => .ok (db.rows.insertionSort idDesc)

/-- The statement of `db.First(&data, "id = ?", id)`: one row with that `id`, and
`ErrRecordNotFound` when there is none. -/
def DB.First (db : DB) (fault : Option String) (id : Int) : Except Error TodoItem :=
  match fault with
  | some m => .error (.storage m)
  | none =>
    match db.rows.find? (fun r => r.Id == id) with
    | some r => .ok r
    | none => .error .ErrRecordNotFound

/-- The columns an `UPDATE` of this program assigns. -/
inductive Column where
  | title
  | description
  | status
  deriving DecidableEq, Repr

/-- The `SET` clause GORM builds from a `TodoItemUpdate` passed to `Updates`: a struct
contributes only its fields that are not the zero value, so a nil pointer and
an empty `Status` are left out. -/
def ConvertToAssignments (data : TodoItemUpdate) : List (Column × String) :=
  (match data.Title with
   | some t => [(Column.title, t)]
   | none => []) ++
  (match data.Description with
   | some d => [(Column.description, d)]
   | none => []) ++
  (if data.Status = "" then [] else [(Column.status, data.Status)])

/-- One assignment of a `SET` clause on a row. -/
def assign (r : TodoItem) (a : Column × String) : TodoItem :=
  match a.1 with
  | .title => { r with Title := a.2 }
  | .description => { r with Description := a.2 }
  | .status => { r with Status := a.2 }

/-- Modelled from the spec: the definition of the table `todo_items` is not in the
repository.  Following section 3 of the specification the storage layer
refreshes `updated_at` of a row that a statement mutates; a row whose columns
all keep their values is not mutated (section 4.6: re-deleting is a no-op
change). -/
def updateRow (now : Nat) (set : List (Column × String)) (r : TodoItem) : TodoItem :=
  let r1 := set.foldl assign r
  if r1 = r then r else { r1 with UpdatedAt := some now }

/-- The effect of one `UPDATE ... WHERE id = ?` on a row: only a row with that `id` is updated. -/
def stepRow (now : Nat) (id : Int) (set : List (Column × String)) (r : TodoItem) : TodoItem :=
  if r.Id = id then updateRow now set r else r

/-- The statement of `Where("id = ?", id).Updates(...)` with the `SET` clause `set`: a failure of the
engine (which already meets the transaction GORM opens) is the error of the call;
otherwise GORM sends no `UPDATE` when the clause is empty, and every row with that `id` is
updated when it is not. -/
def DB.Updates (db : DB) (now : Nat) (fault : Option String) (id : Int)
    (set : List (Column × String)) : Except Error DB :=
  match fault with
  | some m => .error (.storage m)
  | none =>
    if set = [] then .ok db
    else .ok { db with rows := db.rows.map (stepRow now id set) }

/-! ## Handlers -/

/-- The handler `CreateItem` (lines 97-119). -/
def CreateItem (db : DB) (now : Nat) (fault : Option String) (body : Except String JSONBody) :
    Response × DB :=
  match ShouldBindCreation body with
  | .error err => (⟨StatusBadRequest, .H "error" (.msg err)⟩, db)
  | .ok data =>
    match db.Create now fault data with
    | .error err => (⟨StatusBadRequest, .H "error" (.msg err)⟩, db)
    | .ok (data, db1) => (⟨StatusOK, .H "data" (.int data.Id)⟩, db1)

/-- The handler `GetItems` (lines 121-143). -/
def GetItems (db : DB) (fault : Option String) (query : List (String × String)) : Response :=
  match ShouldBindPaging query with
  | .error err => ⟨StatusBadRequest, .H "error" (.msg err)⟩
  | .ok _ =>
    match db.Find fault with
    | .error err => ⟨StatusBadRequest, .raw (.msg err)⟩
    | .ok listItems => ⟨StatusOK, .H "data" (.items listItems)⟩

/-- The handler `GetItemByID` (lines 145-169). -/
def GetItemByID (db : DB) (fault : Option String) (param : String) : Response :=
  match Atoi param with
  | .error err => ⟨StatusBadRequest, .H "error" (.msg (.num err))⟩
  | .ok id =>
    match db.First fault id with
    | .error err => ⟨StatusBadRequest, .H "error" (.msg err)⟩
    | .ok data => ⟨StatusOK, .H "data" (.item data)⟩

/-- The handler `UpdateItemByID` (lines 171-199). -/
def UpdateItemByID (db : DB) (now : Nat) (fault : Option String) (param : String)
    (body : Except String JSONBody) : Response × DB :=
  match Atoi param with
  | .error err => (⟨StatusBadRequest, .H "error" (.msg (.num err))⟩, db)
  | .ok id =>
    match ShouldBindUpdate body with
    | .error err => (⟨StatusBadRequest, .raw (.msg err)⟩, db)
    | .ok data =>
      match db.Updates now fault id (ConvertToAssignments data) with
      | .error err => (⟨StatusBadRequest, .H "error" (.msg err)⟩, db)
      | .ok db1 => (⟨StatusOK, .H "data" (.bool true)⟩, db1)

/-- The handler `DeleteItemByID` (lines 201-221): the map passed to `Updates` assigns `status` only. -/
def DeleteItemByID (db : DB) (now : Nat) (fault : Option String) (param : String) :
    Response × DB :=
  match Atoi param with
  | .error err => (⟨StatusBadRequest, .raw (.msg (.num err))⟩, db)
  | .ok id =>
    match db.Updates now fault id [(Column.status, "Deleted")] with
    | .error err => (⟨StatusBadRequest, .raw (.msg err)⟩, db)
    | .ok db1 => (⟨StatusOK, .H "message" (.bool true)⟩, db1)

/-- A request to one of the five routes of the group `/v1/items` (lines 72-76). -/
inductive Request where
  | create (body : Except String JSONBody)
  | list (query : List (String × String))
  | get (param : String)
  | update (param : String) (body : Except String JSONBody)
  | delete (param : String)
  deriving DecidableEq

/-- The dispatch of the router to the five handlers. -/
def serve (db : DB) (now : Nat) (fault : Option String) : Request → Response × DB
  | .create body => CreateItem db now fault body
  | .list query => (GetItems db fault query, db)
  | .get param => (GetItemByID db fault param, db)
  | .update param body => UpdateItemByID db now fault param body
  | .delete param => DeleteItemByID db now fault param

/-- The stored item with a given `id`, as `First` selects it. -/
def DB.lookup (db : DB) (id : Int) : Option TodoItem :=
  db.rows.find? (fun r => r.Id == id)

/-- The `id` column of the table. -/
def DB.ids (db : DB) : List Int := db.rows.map (·.Id)

/-- The decimal numeral of a natural number, most significant digit first: the identifier
that shows each integer of the range of `int` to be denoted by a path segment. -/
def decimal (n : Nat) : List Char :=
  if n < 10 then [Char.ofNat (48 + n)] else decimal (n / 10) ++ [Char.ofNat (48 + n % 10)]
termination_by n
decreasing_by omega

/-! ## Path identifiers -/

theorem digit_char (d : Nat) (h : d < 10) :
    (Char.ofNat (48 + d)).isDigit = true ∧ (Char.ofNat (48 + d)).toNat - 48 = d ∧
    ((Char.ofNat (48 + d)) == '+') = false ∧ ((Char.ofNat (48 + d)) == '-') = false := by
  interval_cases d <;> decide

theorem parseUintLoop_append (l : List Char) (c : Char) (a : Nat) :
    parseUintLoop (l ++ [c]) a
      = match parseUintLoop l a with
        | .ok m => parseUintLoop [c] m
        | .error e => .error e := by
  induction l generalizing a with
  | nil => rfl
  | cons x t ih =>
    simp only [List.cons_append, parseUintLoop]
    split
    · split
      · rfl
      · split
        · rfl
        · exact ih _
    · rfl

theorem parseUintLoop_digit (m d : Nat) (hd : d < 10) (h : m * 10 + d ≤ maxUint64) :
    parseUintLoop [Char.ofNat (48 + d)] m = .ok (m * 10 + d) := by
  obtain ⟨h1, h2, _, _⟩ := digit_char d hd
  have hm : ¬ (maxUint64 / 10 + 1 ≤ m) := by
    unfold maxUint64 at h ⊢
    omega
  have hn : ¬ (maxUint64 < m * 10 + d) := by omega
  simp only [parseUintLoop, h1, if_true, hm, if_false, h2, hn]

theorem parseUintLoop_decimal (n : Nat) (h : n ≤ maxUint64) :
    parseUintLoop (decimal n) 0 = .ok n := by
  induction n using Nat.strong_induction_on with
  | _ n ih =>
    unfold decimal
    by_cases hn : n < 10
    · rw [if_pos hn]
      have := parseUintLoop_digit 0 n hn (by omega)
      simpa using this
    · rw [if_neg hn, parseUintLoop_append, ih (n / 10) (by omega) (by omega)]
      simp only []
      have := parseUintLoop_digit (n / 10) (n % 10) (by omega) (by omega)
      rw [this]
      congr 1
      omega


theorem decimal_head (n : Nat) :
    ∃ d cs, d < 10 ∧ decimal n = Char.ofNat (48 + d) :: cs := by
  induction n using Nat.strong_induction_on with
  | _ n ih =>
    unfold decimal
    by_cases hn : n < 10
    · rw [if_pos hn]
      exact ⟨n, [], hn, rfl⟩
    · rw [if_neg hn]
      obtain ⟨d, cs, hd, hcs⟩ := ih (n / 10) (by omega)
      exact ⟨d, cs ++ [Char.ofNat (48 + n % 10)], hd, by rw [hcs]; rfl⟩

theorem parseUint_decimal (n : Nat) (h : n ≤ maxUint64) : parseUint (decimal n) = .ok n := by
  obtain ⟨d, cs, _, hcs⟩ := decimal_head n
  have := parseUintLoop_decimal n h
  rw [hcs] at this ⊢
  exact this

theorem parseIntChars_decimal (n : Nat) (h : n < intCutoff) :
    parseIntChars (decimal n) = .ok (n : Int) := by
  obtain ⟨d, cs, hd, hcs⟩ := decimal_head n
  obtain ⟨_, _, hplus, hminus⟩ := digit_char d hd
  have hp := parseUint_decimal n (by unfold intCutoff at h; unfold maxUint64; omega)
  rw [hcs] at hp ⊢
  simp only [parseIntChars, hplus, hminus, Bool.or_self, Bool.false_eq_true, if_false, hp,
    Bool.not_false, Bool.true_and, Bool.false_and, decide_eq_true_eq, not_le.mpr h]

theorem parseIntChars_neg_decimal (n : Nat) (h : n ≤ intCutoff) :
    parseIntChars ('-' :: decimal n) = .ok (-(n : Int)) := by
  have hp := parseUint_decimal n (by unfold intCutoff at h; unfold maxUint64; omega)
  have h1 : (('-' : Char) == '-') = true := by decide
  have h2 : (('-' : Char) == '+') = false := by decide
  simp only [parseIntChars, h1, h2, Bool.or_true, if_true, hp, Bool.not_true, Bool.false_and,
    Bool.false_eq_true, if_false, Bool.true_and, decide_eq_true_eq, not_lt.mpr h]

/-- Every integer of the range of `int` is denoted by a path identifier. -/
theorem Atoi_onto (id : Int) (hlo : -(intCutoff : Int) ≤ id) (hhi : id < (intCutoff : Int)) :
    ∃ param, Atoi param = .ok id := by
  by_cases hneg : id < 0
  · refine ⟨String.mk ('-' :: decimal id.natAbs), ?_⟩
    unfold Atoi
    rw [parseIntChars_neg_decimal id.natAbs (by omega)]
    show Except.ok (-(id.natAbs : Int)) = Except.ok id
    congr 1
    omega
  · refine ⟨String.mk (decimal id.natAbs), ?_⟩
    unfold Atoi
    rw [parseIntChars_decimal id.natAbs (by omega)]
    show Except.ok (id.natAbs : Int) = Except.ok id
    congr 1
    omega

/-- An identifier that parses denotes an integer of the range of `int`. -/
theorem Atoi_range (param : String) (id : Int) (h : Atoi param = .ok id) :
    -(intCutoff : Int) ≤ id ∧ id < (intCutoff : Int) := by
  unfold Atoi at h
  cases hp : parseIntChars param.data with
  | error e => simp [hp] at h
  | ok n =>
    simp only [hp, Except.ok.injEq] at h
    subst h
    have hc : 0 < intCutoff := by decide
    cases hd : param.data with
    | nil =>
      rw [hd] at hp
      simp [parseIntChars] at hp
    | cons c cs =>
      rw [hd] at hp
      simp only [parseIntChars] at hp
      cases hu : parseUint (if (c == '+' || c == '-') = true then cs else c :: cs) with
      | error k =>
        rw [hu] at hp
        cases k <;> simp at hp
      | ok un =>
        rw [hu] at hp
        simp only at hp
        by_cases hneg : (c == '-') = true
        · simp only [hneg, Bool.not_true, Bool.false_and, Bool.false_eq_true, if_false,
            Bool.true_and, decide_eq_true_eq] at hp
          split at hp
          · simp at hp
          · simp only [if_true, Except.ok.injEq] at hp
            omega
        · simp only [Bool.not_eq_true] at hneg
          simp only [hneg, Bool.not_false, Bool.true_and, decide_eq_true_eq, Bool.false_and,
            Bool.false_eq_true, if_false] at hp
          split at hp
          · simp at hp
          · simp only [Except.ok.injEq] at hp
            omega

/-! ## Lemmas on the storage statements -/

theorem assign_Id (r : TodoItem) (a : Column × String) : (assign r a).Id = r.Id := by
  obtain ⟨c, v⟩ := a
  cases c <;> rfl

theorem assign_CreatedAt (r : TodoItem) (a : Column × String) :
    (assign r a).CreatedAt = r.CreatedAt := by
  obtain ⟨c, v⟩ := a
  cases c <;> rfl

theorem foldl_assign_Id (set : List (Column × String)) (r : TodoItem) :
    (set.foldl assign r).Id = r.Id := by
  induction set generalizing r with
  | nil => rfl
  | cons a t ih => rw [List.foldl_cons, ih, assign_Id]

theorem foldl_assign_CreatedAt (set : List (Column × String)) (r : TodoItem) :
    (set.foldl assign r).CreatedAt = r.CreatedAt := by
  induction set generalizing r with
  | nil => rfl
  | cons a t ih => rw [List.foldl_cons, ih, assign_CreatedAt]

theorem updateRow_Id (now : Nat) (set : List (Column × String)) (r : TodoItem) :
    (updateRow now set r).Id = r.Id := by
  unfold updateRow
  by_cases h : set.foldl assign r = r
  · simp [h]
  · simp [h, foldl_assign_Id]

theorem updateRow_CreatedAt (now : Nat) (set : List (Column × String)) (r : TodoItem) :
    (updateRow now set r).CreatedAt = r.CreatedAt := by
  unfold updateRow
  by_cases h : set.foldl assign r = r
  · simp [h]
  · simp [h, foldl_assign_CreatedAt]

theorem updateRow_nil (now : Nat) (r : TodoItem) : updateRow now [] r = r := by
  simp [updateRow]

theorem stepRow_Id (now : Nat) (id : Int) (set : List (Column × String)) (r : TodoItem) :
    (stepRow now id set r).Id = r.Id := by
  unfold stepRow
  split
  · exact updateRow_Id now set r
  · rfl

theorem stepRow_CreatedAt (now : Nat) (id : Int) (set : List (Column × String)) (r : TodoItem) :
    (stepRow now id set r).CreatedAt = r.CreatedAt := by
  unfold stepRow
  split
  · exact updateRow_CreatedAt now set r
  · rfl

/-- Whenever `Updates` succeeds, the rows of the result are the old rows under `stepRow`, and
nothing else of the database changes. -/
theorem Updates_ok (db db1 : DB) (now : Nat) (fault : Option String) (id : Int)
    (set : List (Column × String)) (h : db.Updates now fault id set = .ok db1) :
    db1 = { db with rows := db.rows.map (stepRow now id set) } := by
  unfold DB.Updates at h
  cases fault with
  | some m => simp at h
  | none =>
    simp only at h
    by_cases hs : set = []
    · subst hs
      simp only [if_true, Except.ok.injEq] at h
      subst h
      have : db.rows.map (stepRow now id []) = db.rows := by
        conv_rhs => rw [← List.map_id db.rows]
        apply List.map_congr_left
        intro r _
        simp [stepRow, updateRow_nil]
      rw [this]
    · simp only [hs, if_false, Except.ok.injEq] at h
      rw [← h]

/-- Without a fault of the engine `Updates` succeeds. -/
theorem Updates_none (db : DB) (now : Nat) (id : Int) (set : List (Column × String)) :
    db.Updates now none id set = .ok { db with rows := db.rows.map (stepRow now id set) } := by
  cases h : db.Updates now none id set with
  | error e =>
    unfold DB.Updates at h
    by_cases hs : set = [] <;> simp [hs] at h
  | ok db1 => rw [Updates_ok db db1 now none id set h]

/-- A lookup by `id` commutes with a row function that keeps every `id`. -/
theorem find_map_keeps_Id (f : TodoItem → TodoItem) (hf : ∀ r, (f r).Id = r.Id)
    (rows : List TodoItem) (id : Int) :
    (rows.map f).find? (fun r => r.Id == id) = (rows.find? (fun r => r.Id == id)).map f := by
  induction rows with
  | nil => rfl
  | cons a t ih =>
    by_cases ha : a.Id = id
    · simp [List.find?_cons, hf, ha]
    · simp [List.find?_cons, hf, ha, ih]

theorem lookup_after_Updates (db : DB) (now : Nat) (id k : Int) (set : List (Column × String)) :
    DB.lookup { db with rows := db.rows.map (stepRow now id set) } k
      = (db.lookup k).map (stepRow now id set) := by
  unfold DB.lookup
  exact find_map_keeps_Id _ (stepRow_Id now id set) db.rows k

/-- The row that `DeleteItemByID` leaves. -/
theorem updateRow_delete (now : Nat) (r : TodoItem) :
    updateRow now [(Column.status, "Deleted")] r
      = if r.Status = "Deleted" then r
        else { r with Status := "Deleted", UpdatedAt := some now } := by
  obtain ⟨i, t, d, s, c, u⟩ := r
  by_cases h : s = "Deleted"
  · subst h
    simp [updateRow, assign]
  · have h1 : ¬ ("Deleted" = s) := fun e => h e.symm
    simp [updateRow, assign, h, h1]

/-- The columns after the `SET` clause of a `TodoItemUpdate`. -/
theorem foldl_assign_update (data : TodoItemUpdate) (r : TodoItem) :
    (ConvertToAssignments data).foldl assign r
      = { r with Title := data.Title.getD r.Title
                 Description := data.Description.getD r.Description
                 Status := if data.Status = "" then r.Status else data.Status } := by
  obtain ⟨t, d, s⟩ := data
  by_cases hs : s = "" <;> cases t <;> cases d <;> simp [ConvertToAssignments, assign, hs]

theorem updateRow_update_fields (now : Nat) (data : TodoItemUpdate) (r : TodoItem) :
    (updateRow now (ConvertToAssignments data) r).Title = data.Title.getD r.Title ∧
    (updateRow now (ConvertToAssignments data) r).Description
      = data.Description.getD r.Description ∧
    (updateRow now (ConvertToAssignments data) r).Status
      = if data.Status = "" then r.Status else data.Status := by
  unfold updateRow
  rw [foldl_assign_update]
  by_cases h : ({ r with Title := data.Title.getD r.Title
                         Description := data.Description.getD r.Description
                         Status := if data.Status = "" then r.Status else data.Status }
                  : TodoItem) = r
  · rw [if_pos h]
    have h1 := congrArg TodoItem.Title h
    have h2 := congrArg TodoItem.Description h
    have h3 := congrArg TodoItem.Status h
    simp only at h1 h2 h3
    exact ⟨h1.symm, h2.symm, h3.symm⟩
  · rw [if_neg h]
    exact ⟨rfl, rfl, rfl⟩

/-! ## Partial update -/

/-- Claim C2.  Update is partial: for every store, every request to `UpdateItemByID` whose path
identifier denotes the id of a stored item, and every request body, the stored item
with that id keeps each of title, description and status whose key is absent
from the body (whatever the outcome of the request); so a body with only `status` keeps
title and description, and a body with only `title` keeps status and description. -/
theorem update_is_partial (db : DB) (now : Nat) (fault : Option String) (param : String)
    (j : JSONBody) (id : Int) (r : TodoItem)
    (hid : Atoi param = .ok id) (hr : db.lookup id = some r) :
    ∃ r1, (UpdateItemByID db now fault param (.ok j)).2.lookup id = some r1 ∧
      r1.Id = r.Id ∧
      (j.title = none → r1.Title = r.Title) ∧
      (j.description = none → r1.Description = r.Description) ∧
      (j.status = none → r1.Status = r.Status) := by
  unfold UpdateItemByID
  simp only [hid, ShouldBindUpdate]
  cases hu : db.Updates now fault id (ConvertToAssignments ⟨j.title, j.description, j.status.getD ""⟩) with
  | error e => exact ⟨r, hr, rfl, fun _ => rfl, fun _ => rfl, fun _ => rfl⟩
  | ok db1 =>
    have h1 := Updates_ok db db1 now fault id _ hu
    refine ⟨stepRow now id (ConvertToAssignments ⟨j.title, j.description, j.status.getD ""⟩) r,
      ?_, stepRow_Id _ _ _ _, ?_, ?_, ?_⟩
    · simp only [h1, lookup_after_Updates, hr, Option.map_some']
    all_goals
      have hrid : r.Id = id := by
        have := List.find?_some hr
        simpa using this
      have hf := updateRow_update_fields now ⟨j.title, j.description, j.status.getD ""⟩ r
      simp only [stepRow, hrid, if_true]
      obtain ⟨hf1, hf2, hf3⟩ := hf
      intro hn
      first
        | (rw [hf1]; simp [hn])
        | (rw [hf2]; simp [hn])
        | (rw [hf3]; simp [hn])

theorem update_is_partial_witness :
    ∃ r1, (UpdateItemByID ⟨[⟨1, "buy milk", "two litres", "Doing", some 10, some 10⟩], 2, "Doing"⟩
        20 none "1" (.ok ⟨none, none, some "Done"⟩)).2.lookup 1 = some r1 ∧
      r1.Id = 1 ∧
      ((none : Option String) = none → r1.Title = "buy milk") ∧
      ((none : Option String) = none → r1.Description = "two litres") ∧
      (some "Done" = none → r1.Status = "Doing") :=
  update_is_partial ⟨[⟨1, "buy milk", "two litres", "Doing", some 10, some 10⟩], 2, "Doing"⟩
    20 none "1" ⟨none, none, some "Done"⟩ 1 ⟨1, "buy milk", "two litres", "Doing", some 10, some 10⟩
    (by decide) (by decide)

/-! ## Soft delete -/

theorem lookup_Id (db : DB) (id : Int) (r : TodoItem) (h : db.lookup id = some r) : r.Id = id := by
  have := List.find?_some h
  simpa using this

theorem lookup_mem (db : DB) (id : Int) (r : TodoItem) (h : db.lookup id = some r) :
    r ∈ db.rows :=
  List.mem_of_find?_eq_some h

theorem Delete_none (db : DB) (now : Nat) (param : String) (id : Int)
    (hid : Atoi param = .ok id) :
    DeleteItemByID db now none param
      = (⟨StatusOK, .H "message" (.bool true)⟩,
         { db with rows := db.rows.map (stepRow now id [(Column.status, "Deleted")]) }) := by
  unfold DeleteItemByID
  simp only [hid, Updates_none]

theorem Get_of_lookup (db : DB) (param : String) (id : Int) (r : TodoItem)
    (hid : Atoi param = .ok id) (hr : db.lookup id = some r) :
    GetItemByID db none param = ⟨StatusOK, .H "data" (.item r)⟩ := by
  unfold DB.lookup at hr
  unfold GetItemByID DB.First
  simp only [hid, hr]

/-- Claim C3.  Delete is a soft delete: when the path identifier denotes the id of a stored
item and the engine does not fail, `DeleteItemByID` responds 200 with `message: true`; the
table has the same rows in the same places, a row with another id is unchanged,
a row with that id has status "Deleted" and keeps id, title, description and
created_at; and `GetItemByID` on the same identifier afterwards returns the item, with
status "Deleted" and those four fields as stored before. -/
theorem delete_is_soft (db : DB) (now : Nat) (param : String) (id : Int) (r : TodoItem)
    (hid : Atoi param = .ok id) (hr : db.lookup id = some r) :
    (DeleteItemByID db now none param).1 = ⟨StatusOK, .H "message" (.bool true)⟩ ∧
    List.Forall₂
      (fun a b => (a.Id ≠ id → b = a) ∧
        (a.Id = id → b.Status = "Deleted" ∧ b.Id = a.Id ∧ b.Title = a.Title ∧
          b.Description = a.Description ∧ b.CreatedAt = a.CreatedAt))
      db.rows (DeleteItemByID db now none param).2.rows ∧
    ∃ r1, GetItemByID (DeleteItemByID db now none param).2 none param
        = ⟨StatusOK, .H "data" (.item r1)⟩ ∧
      r1.Status = "Deleted" ∧ r1.Id = id ∧ r1.Title = r.Title ∧
      r1.Description = r.Description ∧ r1.CreatedAt = r.CreatedAt := by
  have hstep : ∀ a : TodoItem, a.Id = id →
      (stepRow now id [(Column.status, "Deleted")] a).Status = "Deleted" ∧
      (stepRow now id [(Column.status, "Deleted")] a).Id = a.Id ∧
      (stepRow now id [(Column.status, "Deleted")] a).Title = a.Title ∧
      (stepRow now id [(Column.status, "Deleted")] a).Description = a.Description ∧
      (stepRow now id [(Column.status, "Deleted")] a).CreatedAt = a.CreatedAt := by
    intro a ha
    simp only [stepRow, ha, if_true, updateRow_delete]
    by_cases hs : a.Status = "Deleted"
    · simp [hs, ha]
    · simp [hs, ha]
  rw [Delete_none db now param id hid]
  refine ⟨rfl, ?_, ?_⟩
  · simp only [List.forall₂_map_right_iff]
    apply List.forall₂_same.mpr
    intro a _
    refine ⟨fun hne => ?_, hstep a⟩
    simp [stepRow, hne]
  · refine ⟨stepRow now id [(Column.status, "Deleted")] r, ?_, ?_⟩
    · apply Get_of_lookup _ param id _ hid
      rw [lookup_after_Updates, hr]
      rfl
    · have h := hstep r (lookup_Id db id r hr)
      have h2 := lookup_Id db id r hr
      exact ⟨h.1, h.2.1.trans h2, h.2.2.1, h.2.2.2.1, h.2.2.2.2⟩

theorem delete_is_soft_witness :
    (DeleteItemByID ⟨[⟨1, "buy milk", "", "Doing", some 10, some 10⟩], 2, "Doing"⟩
        20 none "1").1 = ⟨StatusOK, .H "message" (.bool true)⟩ ∧
    List.Forall₂
      (fun a b => (a.Id ≠ 1 → b = a) ∧
        (a.Id = 1 → b.Status = "Deleted" ∧ b.Id = a.Id ∧ b.Title = a.Title ∧
          b.Description = a.Description ∧ b.CreatedAt = a.CreatedAt))
      (DB.rows ⟨[⟨1, "buy milk", "", "Doing", some 10, some 10⟩], 2, "Doing"⟩)
      (DeleteItemByID ⟨[⟨1, "buy milk", "", "Doing", some 10, some 10⟩], 2, "Doing"⟩
        20 none "1").2.rows ∧
    ∃ r1, GetItemByID (DeleteItemByID ⟨[⟨1, "buy milk", "", "Doing", some 10, some 10⟩], 2, "Doing"⟩
          20 none "1").2 none "1"
        = ⟨StatusOK, .H "data" (.item r1)⟩ ∧
      r1.Status = "Deleted" ∧ r1.Id = 1 ∧ r1.Title = "buy milk" ∧
      r1.Description = "" ∧ r1.CreatedAt = some 10 :=
  delete_is_soft ⟨[⟨1, "buy milk", "", "Doing", some 10, some 10⟩], 2, "Doing"⟩ 20 "1" 1
    ⟨1, "buy milk", "", "Doing", some 10, some 10⟩ (by decide) (by decide)

/-- Deleting a row a second time, at any later time, changes nothing. -/
theorem stepRow_delete_twice (t1 t2 : Nat) (id : Int) (a : TodoItem) :
    stepRow t2 id [(Column.status, "Deleted")] (stepRow t1 id [(Column.status, "Deleted")] a)
      = stepRow t1 id [(Column.status, "Deleted")] a := by
  by_cases ha : a.Id = id
  · by_cases hs : a.Status = "Deleted"
    · simp [stepRow, ha, updateRow_delete, hs]
    · simp [stepRow, ha, updateRow_delete, hs]
  · simp [stepRow, ha]

/-- Claim C5.  Delete is idempotent: for every store and every path identifier that denotes an
integer id, with an engine that does not fail, `DeleteItemByID` applied twice (at any two
times) leaves the same store as applied once, both calls respond 200 with
`message: true`, no call removes a row (the id column is the same after each call), after
each call every stored item with that id has status "Deleted", and an item stored under
that id before the first call is still stored under it after each call, with status
"Deleted" and its id, title, description and `created_at` unchanged. -/
theorem delete_is_idempotent (db : DB) (t1 t2 : Nat) (param : String) (id : Int)
    (hid : Atoi param = .ok id) :
    (DeleteItemByID (DeleteItemByID db t1 none param).2 t2 none param).2
      = (DeleteItemByID db t1 none param).2 ∧
    (DeleteItemByID db t1 none param).1 = ⟨StatusOK, .H "message" (.bool true)⟩ ∧
    (DeleteItemByID (DeleteItemByID db t1 none param).2 t2 none param).1
      = ⟨StatusOK, .H "message" (.bool true)⟩ ∧
    (∀ r ∈ (DeleteItemByID db t1 none param).2.rows, r.Id = id → r.Status = "Deleted") ∧
    (∀ r ∈ (DeleteItemByID (DeleteItemByID db t1 none param).2 t2 none param).2.rows,
      r.Id = id → r.Status = "Deleted") ∧
    (DeleteItemByID db t1 none param).2.ids = db.ids ∧
    (DeleteItemByID (DeleteItemByID db t1 none param).2 t2 none param).2.ids = db.ids ∧
    (∀ r, db.lookup id = some r →
      (∃ r1, (DeleteItemByID db t1 none param).2.lookup id = some r1 ∧
        r1.Status = "Deleted" ∧ r1.Id = r.Id ∧ r1.Title = r.Title ∧
        r1.Description = r.Description ∧ r1.CreatedAt = r.CreatedAt) ∧
      (∃ r2, (DeleteItemByID (DeleteItemByID db t1 none param).2 t2 none param).2.lookup id
          = some r2 ∧
        r2.Status = "Deleted" ∧ r2.Id = r.Id ∧ r2.Title = r.Title ∧
        r2.Description = r.Description ∧ r2.CreatedAt = r.CreatedAt)) := by
  have hdel : ∀ (t : Nat) (rows : List TodoItem),
      ∀ r ∈ rows.map (stepRow t id [(Column.status, "Deleted")]), r.Id = id →
        r.Status = "Deleted" := by
    intro t rows r hr hrid
    obtain ⟨a, _, rfl⟩ := List.mem_map.mp hr
    have ha : a.Id = id := by rw [← stepRow_Id t id [(Column.status, "Deleted")] a]; exact hrid
    by_cases hs : a.Status = "Deleted"
    · simp [stepRow, ha, updateRow_delete, hs]
    · simp [stepRow, ha, updateRow_delete, hs]
  have htwice : ∀ rows : List TodoItem,
      (rows.map (stepRow t1 id [(Column.status, "Deleted")])).map
          (stepRow t2 id [(Column.status, "Deleted")])
        = rows.map (stepRow t1 id [(Column.status, "Deleted")]) := by
    intro rows
    rw [List.map_map]
    apply List.map_congr_left
    intro a _
    exact stepRow_delete_twice t1 t2 id a
  have hids : (db.rows.map (stepRow t1 id [(Column.status, "Deleted")])).map (fun r => r.Id)
      = db.rows.map (fun r => r.Id) := by
    rw [List.map_map]
    apply List.map_congr_left
    intro a _
    exact stepRow_Id t1 id _ a
  have hkeep : ∀ r : TodoItem, r.Id = id →
      (stepRow t1 id [(Column.status, "Deleted")] r).Status = "Deleted" ∧
      (stepRow t1 id [(Column.status, "Deleted")] r).Id = r.Id ∧
      (stepRow t1 id [(Column.status, "Deleted")] r).Title = r.Title ∧
      (stepRow t1 id [(Column.status, "Deleted")] r).Description = r.Description ∧
      (stepRow t1 id [(Column.status, "Deleted")] r).CreatedAt = r.CreatedAt := by
    intro r hr
    simp only [stepRow, hr, if_true, updateRow_delete]
    by_cases hs : r.Status = "Deleted"
    · simp [hs, hr]
    · simp [hs, hr]
  rw [Delete_none db t1 param id hid, Delete_none _ t2 param id hid]
  refine ⟨?_, rfl, rfl, hdel t1 db.rows, ?_, hids, ?_, ?_⟩
  · simp only [htwice]
  · simp only [htwice]
    exact hdel t1 db.rows
  · simp only [htwice]
    exact hids
  simp only [htwice]
  intro r hr
  have hl : DB.lookup { db with rows := db.rows.map (stepRow t1 id [(Column.status, "Deleted")]) } id
      = some (stepRow t1 id [(Column.status, "Deleted")] r) := by
    rw [lookup_after_Updates, hr]
    rfl
  have hk := hkeep r (lookup_Id db id r hr)
  exact ⟨⟨_, hl, hk⟩, ⟨_, hl, hk⟩⟩

theorem delete_is_idempotent_witness :
    ((DeleteItemByID (DeleteItemByID ⟨[⟨7, "a", "b", "Doing", some 1, some 1⟩], 8, "Doing"⟩
        20 none "7").2 30 none "7").2
      = (DeleteItemByID ⟨[⟨7, "a", "b", "Doing", some 1, some 1⟩], 8, "Doing"⟩ 20 none "7").2 ∧
    (DeleteItemByID ⟨[⟨7, "a", "b", "Doing", some 1, some 1⟩], 8, "Doing"⟩ 20 none "7").1
      = ⟨StatusOK, .H "message" (.bool true)⟩ ∧
    (DeleteItemByID (DeleteItemByID ⟨[⟨7, "a", "b", "Doing", some 1, some 1⟩], 8, "Doing"⟩
        20 none "7").2 30 none "7").1
      = ⟨StatusOK, .H "message" (.bool true)⟩) ∧
    (∃ r1, (DeleteItemByID ⟨[⟨7, "a", "b", "Doing", some 1, some 1⟩], 8, "Doing"⟩
        20 none "7").2.lookup 7 = some r1 ∧
      r1.Status = "Deleted" ∧ r1.Id = 7 ∧ r1.Title = "a" ∧
      r1.Description = "b" ∧ r1.CreatedAt = some 1) ∧
    (∃ r2, (DeleteItemByID (DeleteItemByID ⟨[⟨7, "a", "b", "Doing", some 1, some 1⟩], 8, "Doing"⟩
        20 none "7").2 30 none "7").2.lookup 7 = some r2 ∧
      r2.Status = "Deleted" ∧ r2.Id = 7 ∧ r2.Title = "a" ∧
      r2.Description = "b" ∧ r2.CreatedAt = some 1) :=
  have h := delete_is_idempotent ⟨[⟨7, "a", "b", "Doing", some 1, some 1⟩], 8, "Doing"⟩ 20 30 "7" 7
    (by decide)
  ⟨⟨h.1, h.2.1, h.2.2.1⟩,
    (h.2.2.2.2.2.2.2 ⟨7, "a", "b", "Doing", some 1, some 1⟩ (by decide)).1,
    (h.2.2.2.2.2.2.2 ⟨7, "a", "b", "Doing", some 1, some 1⟩ (by decide)).2⟩

/-! ## Identifiers that match no row -/

theorem map_stepRow_no_match (rows : List TodoItem) (now : Nat) (id : Int)
    (set : List (Column × String)) (hno : ∀ r ∈ rows, r.Id ≠ id) :
    rows.map (stepRow now id set) = rows := by
  conv_rhs => rw [← List.map_id rows]
  apply List.map_congr_left
  intro r hr
  simp [stepRow, hno r hr]

/-- Claim C6.  For every store and every path identifier that denotes an integer id which no
stored item has, with an engine that does not fail, `UpdateItemByID` with any body that
binds responds 200 with `data: true`, `DeleteItemByID` responds 200 with `message: true`, and
both leave the store unchanged. -/
theorem no_match_reports_success (db : DB) (now : Nat) (param : String) (id : Int)
    (j : JSONBody) (hid : Atoi param = .ok id) (hno : ∀ r ∈ db.rows, r.Id ≠ id) :
    UpdateItemByID db now none param (.ok j) = (⟨StatusOK, .H "data" (.bool true)⟩, db) ∧
    DeleteItemByID db now none param = (⟨StatusOK, .H "message" (.bool true)⟩, db) := by
  constructor
  · unfold UpdateItemByID
    simp only [hid, ShouldBindUpdate, Updates_none, map_stepRow_no_match db.rows now id _ hno]
  · rw [Delete_none db now param id hid, map_stepRow_no_match db.rows now id _ hno]

theorem no_match_reports_success_witness :
    UpdateItemByID ⟨[⟨1, "a", "b", "Doing", some 1, some 1⟩], 2, "Doing"⟩ 20 none "5"
        (.ok ⟨some "x", none, some "Done"⟩)
      = (⟨StatusOK, .H "data" (.bool true)⟩, ⟨[⟨1, "a", "b", "Doing", some 1, some 1⟩], 2, "Doing"⟩) ∧
    DeleteItemByID ⟨[⟨1, "a", "b", "Doing", some 1, some 1⟩], 2, "Doing"⟩ 20 none "5"
      = (⟨StatusOK, .H "message" (.bool true)⟩, ⟨[⟨1, "a", "b", "Doing", some 1, some 1⟩], 2, "Doing"⟩) :=
  no_match_reports_success ⟨[⟨1, "a", "b", "Doing", some 1, some 1⟩], 2, "Doing"⟩ 20 "5" 5
    ⟨some "x", none, some "Done"⟩ (by decide) (by decide)

/-! ## Status transitions through Update -/

/-- Claim C8, as stated, fails: an update whose body carries the empty status succeeds and
leaves the stored status "Doing" in place. -/
theorem update_empty_status_not_written :
    (UpdateItemByID ⟨[⟨1, "buy milk", "", "Doing", some 10, some 10⟩], 2, "Doing"⟩ 20 none "1"
        (.ok ⟨none, none, some ""⟩)).1 = ⟨StatusOK, .H "data" (.bool true)⟩ ∧
    ((UpdateItemByID ⟨[⟨1, "buy milk", "", "Doing", some 10, some 10⟩], 2, "Doing"⟩ 20 none "1"
        (.ok ⟨none, none, some ""⟩)).2.lookup 1).map (·.Status) = some "Doing" ∧
    ((UpdateItemByID ⟨[⟨1, "buy milk", "", "Doing", some 10, some 10⟩], 2, "Doing"⟩ 20 none "1"
        (.ok ⟨none, none, some ""⟩)).2.lookup 1).map (·.Status) ≠ some "" := by
  decide

/-- Claim C8, amended.  For every store, every stored item (whatever its status, "Deleted"
included) and every status value `s` in the body of a successful `UpdateItemByID` on its id:
when `s` is not empty the stored status afterwards is `s`, and when `s` is empty the stored
status is unchanged. -/
theorem update_sets_nonempty_status (db : DB) (now : Nat) (fault : Option String)
    (param : String) (j : JSONBody) (id : Int) (r : TodoItem) (s : String)
    (hid : Atoi param = .ok id) (hr : db.lookup id = some r) (hs : j.status = some s)
    (hok : (UpdateItemByID db now fault param (.ok j)).1.status = StatusOK) :
    ∃ r1, (UpdateItemByID db now fault param (.ok j)).2.lookup id = some r1 ∧
      (s ≠ "" → r1.Status = s) ∧ (s = "" → r1.Status = r.Status) := by
  unfold UpdateItemByID at hok ⊢
  simp only [hid, ShouldBindUpdate, hs, Option.getD_some] at hok ⊢
  cases hu : db.Updates now fault id (ConvertToAssignments ⟨j.title, j.description, s⟩) with
  | error e =>
    rw [hu] at hok
    simp [StatusBadRequest, StatusOK] at hok
  | ok db1 =>
    have h1 := Updates_ok db db1 now fault id _ hu
    refine ⟨stepRow now id (ConvertToAssignments ⟨j.title, j.description, s⟩) r, ?_, ?_, ?_⟩
    · simp only [h1, lookup_after_Updates, hr, Option.map_some']
    all_goals
      have hf := (updateRow_update_fields now ⟨j.title, j.description, s⟩ r).2.2
      intro hn
      simp only [stepRow, lookup_Id db id r hr, if_true]
      rw [hf]
      simp [hn]

theorem update_sets_nonempty_status_witness :
    ∃ r1, (UpdateItemByID ⟨[⟨1, "buy milk", "", "Deleted", some 10, some 10⟩], 2, "Doing"⟩ 20 none
        "1" (.ok ⟨none, none, some "Done"⟩)).2.lookup 1 = some r1 ∧
      ("Done" ≠ "" → r1.Status = "Done") ∧ ("Done" = "" → r1.Status = "Deleted") :=
  update_sets_nonempty_status ⟨[⟨1, "buy milk", "", "Deleted", some 10, some 10⟩], 2, "Doing"⟩ 20
    none "1" ⟨none, none, some "Done"⟩ 1 ⟨1, "buy milk", "", "Deleted", some 10, some 10⟩ "Done"
    (by decide) (by decide) rfl (by decide)

/-! ## Get by id -/

theorem lookup_isSome_iff (db : DB) (id : Int) :
    (∃ r, db.lookup id = some r) ↔ ∃ r ∈ db.rows, r.Id = id := by
  constructor
  · rintro ⟨r, hr⟩
    exact ⟨r, lookup_mem db id r hr, lookup_Id db id r hr⟩
  · rintro ⟨r, hr, hrid⟩
    cases h : db.lookup id with
    | some a => exact ⟨a, rfl⟩
    | none =>
      unfold DB.lookup at h
      have := List.find?_eq_none.mp h r hr
      simp [hrid] at this

/-- Claim C7.  With an engine that does not fail, `GetItemByID` responds 200 exactly when the
path identifier parses as an integer and a stored item has that id, and the body is then
that stored item; every response that is not 200 (engine faults included) is a 400 with
an error message under the key `error`, and no response is a 404.  When the identifier
does not parse the response is the 400 with the parse error, the same for every
store and every state of the engine; "abc" is such an identifier. -/
theorem get_by_id_responses (db : DB) (param : String) :
    ((GetItemByID db none param).status = StatusOK ↔
      ∃ id, Atoi param = .ok id ∧ ∃ r ∈ db.rows, r.Id = id) ∧
    (∀ id r, Atoi param = .ok id → db.lookup id = some r →
      GetItemByID db none param = ⟨StatusOK, .H "data" (.item r)⟩) ∧
    (∀ fault, (GetItemByID db fault param).status ≠ StatusOK →
      (GetItemByID db fault param).status = StatusBadRequest ∧
      ∃ e, (GetItemByID db fault param).body = .H "error" (.msg e)) ∧
    (∀ fault, (GetItemByID db fault param).status ≠ StatusNotFound) ∧
    (∀ e, Atoi param = .error e → ∀ (db2 : DB) (fault : Option String),
      GetItemByID db2 fault param = ⟨StatusBadRequest, .H "error" (.msg (.num e))⟩) ∧
    (∀ (db2 : DB) (fault : Option String), GetItemByID db2 fault "abc"
      = ⟨StatusBadRequest, .H "error" (.msg (.num ⟨"Atoi", "abc", .ErrSyntax⟩))⟩) := by
  have hparse : ∀ (p : String) (e : NumError), Atoi p = .error e →
      ∀ (db2 : DB) (fault : Option String),
        GetItemByID db2 fault p = ⟨StatusBadRequest, .H "error" (.msg (.num e))⟩ := by
    intro p e he db2 fault
    unfold GetItemByID
    simp only [he]
  have hshape : ∀ fault, (GetItemByID db fault param).status = StatusOK ∨
      ((GetItemByID db fault param).status = StatusBadRequest ∧
        ∃ e, (GetItemByID db fault param).body = .H "error" (.msg e)) := by
    intro fault
    unfold GetItemByID
    cases Atoi param with
    | error e => exact Or.inr ⟨rfl, _, rfl⟩
    | ok id =>
      simp only []
      cases db.First fault id with
      | error e => exact Or.inr ⟨rfl, _, rfl⟩
      | ok r => exact Or.inl rfl
  refine ⟨?_, ?_, ?_, ?_, hparse param, hparse "abc" _ (by decide)⟩
  · constructor
    · intro h
      cases ha : Atoi param with
      | error e =>
        rw [hparse param e ha] at h
        simp [StatusBadRequest, StatusOK] at h
      | ok id =>
        refine ⟨id, rfl, (lookup_isSome_iff db id).mp ?_⟩
        cases hl : db.lookup id with
        | some r => exact ⟨r, rfl⟩
        | none =>
          unfold DB.lookup at hl
          unfold GetItemByID DB.First at h
          simp [ha, hl, StatusBadRequest, StatusOK] at h
    · rintro ⟨id, ha, hex⟩
      obtain ⟨r, hr⟩ := (lookup_isSome_iff db id).mpr hex
      rw [Get_of_lookup db param id r ha hr]
  · intro id r ha hr
    exact Get_of_lookup db param id r ha hr
  · intro fault hne
    rcases hshape fault with h | h
    · exact absurd h hne
    · exact h
  · intro fault
    rcases hshape fault with h | h
    · rw [h]; decide
    · rw [h.1]; decide

/-! ## Create, then get -/

/-- What a successful `Create` did: the id written back was not stored before, and the
one new row is appended. -/
theorem Create_ok (db db1 : DB) (now : Nat) (fault : Option String)
    (data data1 : TodoItemCreation) (h : db.Create now fault data = .ok (data1, db1)) :
    (∀ r ∈ db.rows, r.Id ≠ data1.Id) ∧
    (data1.Title = data.Title ∧ data1.Description = data.Description) ∧
    db1.rows = db.rows ++ [newRow db now data1.Id data] ∧
    db1.statusDefault = db.statusDefault := by
  unfold DB.Create at h
  cases fault with
  | some m => simp at h
  | none =>
    simp only at h
    generalize (if data.Id = 0 then db.autoInc else data.Id) = id at h
    by_cases hdup : db.rows.any (fun r => r.Id == id) = true
    · rw [if_pos hdup] at h
      simp at h
    · rw [if_neg hdup] at h
      simp only [Except.ok.injEq, Prod.mk.injEq] at h
      obtain ⟨rfl, rfl⟩ := h
      refine ⟨?_, ⟨rfl, rfl⟩, rfl, rfl⟩
      intro r hr
      simp only [Bool.not_eq_true, List.any_eq_false, beq_iff_eq] at hdup
      simpa using hdup r hr

/-- Claim C1.  Create followed by Get is a round trip: for every store and every creation
request that binds and whose insert succeeds, `CreateItem` responds 200 with the id the
insert assigned, and `GetItemByID` on an identifier denoting that id, on the resulting
store, responds 200 with an item that has this id, the submitted title and
description, the default status of the storage, and a `created_at` that is not null. -/
theorem create_then_get (db db1 : DB) (now : Nat) (fault : Option String)
    (body : Except String JSONBody) (data data1 : TodoItemCreation)
    (hbind : ShouldBindCreation body = .ok data)
    (hins : db.Create now fault data = .ok (data1, db1)) :
    CreateItem db now fault body = (⟨StatusOK, .H "data" (.int data1.Id)⟩, db1) ∧
    ∀ param, Atoi param = .ok data1.Id →
      ∃ item, GetItemByID db1 none param = ⟨StatusOK, .H "data" (.item item)⟩ ∧
        item.Id = data1.Id ∧ item.Title = data.Title ∧ item.Description = data.Description ∧
        item.Status = db.statusDefault ∧ item.CreatedAt ≠ none := by
  constructor
  · unfold CreateItem
    simp only [hbind, hins]
  · intro param hid
    obtain ⟨hnew, _, hrows, _⟩ := Create_ok db db1 now fault data data1 hins
    refine ⟨newRow db now data1.Id data, ?_, rfl, rfl, rfl, rfl, by simp [newRow]⟩
    apply Get_of_lookup db1 param data1.Id _ hid
    unfold DB.lookup
    rw [hrows, List.find?_append]
    have hnone : List.find? (fun r => r.Id == data1.Id) db.rows = none := by
      apply List.find?_eq_none.mpr
      intro r hr
      simpa using hnew r hr
    simp [hnone, newRow]

theorem create_then_get_witness :
    CreateItem ⟨[⟨1, "a", "b", "Deleted", some 1, some 2⟩], 2, "Doing"⟩ 20 none
        (.ok ⟨some "buy milk", none, none⟩)
      = (⟨StatusOK, .H "data" (.int 2)⟩,
         ⟨[⟨1, "a", "b", "Deleted", some 1, some 2⟩, ⟨2, "buy milk", "", "Doing", some 20, some 20⟩],
          3, "Doing"⟩) ∧
    ∀ param, Atoi param = .ok 2 →
      ∃ item, GetItemByID
          ⟨[⟨1, "a", "b", "Deleted", some 1, some 2⟩, ⟨2, "buy milk", "", "Doing", some 20, some 20⟩],
            3, "Doing"⟩ none param = ⟨StatusOK, .H "data" (.item item)⟩ ∧
        item.Id = 2 ∧ item.Title = "buy milk" ∧ item.Description = "" ∧
        item.Status = "Doing" ∧ item.CreatedAt ≠ none :=
  create_then_get ⟨[⟨1, "a", "b", "Deleted", some 1, some 2⟩], 2, "Doing"⟩
    ⟨[⟨1, "a", "b", "Deleted", some 1, some 2⟩, ⟨2, "buy milk", "", "Doing", some 20, some 20⟩],
      3, "Doing"⟩ 20 none (.ok ⟨some "buy milk", none, none⟩) ⟨0, "buy milk", ""⟩ ⟨2, "buy milk", ""⟩
    (by decide) (by decide)

/-! ## Listing -/

theorem Find_none (db : DB) : db.Find none = .ok (db.rows.insertionSort idDesc) := rfl

theorem GetItems_of_bind (db : DB) (fault : Option String) (query : List (String × String))
    (p : Paging) (hb : ShouldBindPaging query = .ok p) :
    GetItems db fault query
      = match db.Find fault with
        | .error err => ⟨StatusBadRequest, .raw (.msg err)⟩
        | .ok listItems => ⟨StatusOK, .H "data" (.items listItems)⟩ := by
  unfold GetItems
  simp only [hb]

/-- Claim C4.  For every store, with an engine that does not fail, `GetItems` on a request whose
paging parameters bind responds 200 with a list that is a permutation of the stored
rows (every stored item exactly once, whatever its status), ordered by id descending,
strictly so when the stored ids are pairwise distinct; when the stored ids are 1, 2
and 3 the ids of the response are [3, 2, 1]. -/
theorem list_is_all_rows_by_id_desc (db : DB) (query : List (String × String)) (p : Paging)
    (hb : ShouldBindPaging query = .ok p) :
    ∃ l, GetItems db none query = ⟨StatusOK, .H "data" (.items l)⟩ ∧
      l.Perm db.rows ∧
      l.Pairwise (fun a b => b.Id ≤ a.Id) ∧
      (db.ids.Nodup → l.Pairwise (fun a b => b.Id < a.Id)) ∧
      (db.ids.Perm [1, 2, 3] → l.map (·.Id) = [3, 2, 1]) := by
  have hperm : (db.rows.insertionSort idDesc).Perm db.rows := List.perm_insertionSort idDesc db.rows
  have hsort : (db.rows.insertionSort idDesc).Pairwise (fun a b => b.Id ≤ a.Id) :=
    List.sorted_insertionSort idDesc db.rows
  refine ⟨db.rows.insertionSort idDesc, ?_, hperm, hsort, ?_, ?_⟩
  · rw [GetItems_of_bind db none query p hb, Find_none]
  · intro hnd
    have hnd1 : (db.rows.map (fun r : TodoItem => r.Id)).Nodup := hnd
    have hnd2 : ((db.rows.insertionSort idDesc).map (fun r : TodoItem => r.Id)).Nodup :=
      ((hperm.map (fun r : TodoItem => r.Id)).nodup_iff).mpr hnd1
    have hne : (db.rows.insertionSort idDesc).Pairwise (fun a b => a.Id ≠ b.Id) :=
      List.pairwise_map.mp hnd2
    exact (hsort.and hne).imp (fun h => lt_of_le_of_ne h.1 (Ne.symm h.2))
  · intro h123
    have h1 : (db.rows.map (fun r : TodoItem => r.Id)).Perm [1, 2, 3] := h123
    have h2 : ([1, 2, 3] : List Int).Perm [3, 2, 1] := by decide
    have hp : ((db.rows.insertionSort idDesc).map (fun r : TodoItem => r.Id)).Perm [3, 2, 1] :=
      ((hperm.map (fun r : TodoItem => r.Id)).trans h1).trans h2
    have hs : ((db.rows.insertionSort idDesc).map (fun r : TodoItem => r.Id)).Sorted (· ≥ ·) :=
      List.pairwise_map.mpr hsort
    exact List.eq_of_perm_of_sorted hp hs (by decide)

theorem list_is_all_rows_by_id_desc_witness :
    ∃ l, GetItems ⟨[⟨1, "a", "", "Deleted", some 1, some 9⟩, ⟨2, "b", "", "Doing", some 2, some 2⟩,
          ⟨3, "c", "", "Doing", some 3, some 3⟩], 4, "Doing"⟩ none [("limit", "1")]
        = ⟨StatusOK, .H "data" (.items l)⟩ ∧
      l.Perm [⟨1, "a", "", "Deleted", some 1, some 9⟩, ⟨2, "b", "", "Doing", some 2, some 2⟩,
          ⟨3, "c", "", "Doing", some 3, some 3⟩] ∧
      l.Pairwise (fun a b => b.Id ≤ a.Id) ∧
      (([1, 2, 3] : List Int).Nodup → l.Pairwise (fun a b => b.Id < a.Id)) ∧
      (([1, 2, 3] : List Int).Perm [1, 2, 3] → l.map (·.Id) = [3, 2, 1]) :=
  list_is_all_rows_by_id_desc
    ⟨[⟨1, "a", "", "Deleted", some 1, some 9⟩, ⟨2, "b", "", "Doing", some 2, some 2⟩,
      ⟨3, "c", "", "Doing", some 3, some 3⟩], 4, "Doing"⟩ [("limit", "1")] ⟨0, 0, 0⟩ (by decide)

/-! ## Paging parameters -/

/-- Claim C9, as stated, fails: with `page=abc` in the query string the binding of `Paging`
fails and `GetItems` responds 400, while the same store without query parameters gives
200 with its items. -/
theorem list_rejects_page_abc :
    GetItems ⟨[⟨1, "a", "", "Doing", some 1, some 1⟩], 2, "Doing"⟩ none [("page", "abc")]
      = ⟨StatusBadRequest, .H "error" (.msg (.num ⟨"ParseInt", "abc", .ErrSyntax⟩))⟩ ∧
    GetItems ⟨[⟨1, "a", "", "Doing", some 1, some 1⟩], 2, "Doing"⟩ none []
      = ⟨StatusOK, .H "data" (.items [⟨1, "a", "", "Doing", some 1, some 1⟩])⟩ ∧
    GetItems ⟨[⟨1, "a", "", "Doing", some 1, some 1⟩], 2, "Doing"⟩ none [("page", "abc")]
      ≠ GetItems ⟨[⟨1, "a", "", "Doing", some 1, some 1⟩], 2, "Doing"⟩ none [] := by
  decide

theorem setIntField_ok (v : String) (h : v = "" ∨ ∃ n, ParseInt v = .ok n) :
    ∃ n, setIntField v = .ok n := by
  unfold setIntField
  rcases h with h | ⟨n, hn⟩
  · subst h
    exact ⟨0, by decide⟩
  · by_cases hv : v = ""
    · subst hv
      exact ⟨0, by decide⟩
    · rw [if_neg hv, hn]
      exact ⟨n, rfl⟩

/-- Claim C9, amended.  The paging parameters are unused once they bind: for every store and
every query string on which the binding of `Paging` succeeds, `GetItems` returns what it returns
with no query parameters; the binding succeeds when `page` is absent, empty, or a decimal
integer that `ParseInt` accepts; and when the binding fails `GetItems` responds 400 with the
error of the binding. -/
theorem paging_unused_when_bound (db : DB) (fault : Option String)
    (query : List (String × String)) :
    (∀ p, ShouldBindPaging query = .ok p → GetItems db fault query = GetItems db fault []) ∧
    ((∀ v, query.lookup "page" = some v → v = "" ∨ ∃ n, ParseInt v = .ok n) →
      ∃ p, ShouldBindPaging query = .ok p) ∧
    (∀ e, ShouldBindPaging query = .error e →
      GetItems db fault query = ⟨StatusBadRequest, .H "error" (.msg e)⟩) := by
  refine ⟨?_, ?_, ?_⟩
  · intro p hp
    rw [GetItems_of_bind db fault query p hp, GetItems_of_bind db fault [] ⟨0, 0, 0⟩ (by decide)]
  · intro h
    unfold ShouldBindPaging mapFormInt
    cases hl : query.lookup "page" with
    | none => exact ⟨_, rfl⟩
    | some v =>
      obtain ⟨n, hn⟩ := setIntField_ok v (h v hl)
      simp only [hn]
      exact ⟨_, rfl⟩
  · intro e he
    unfold GetItems
    simp only [he]

theorem paging_unused_when_bound_witness :
    (∀ p, ShouldBindPaging [("page", "2"), ("limit", "x")] = .ok p →
      GetItems ⟨[⟨1, "a", "", "Doing", some 1, some 1⟩], 2, "Doing"⟩ none
          [("page", "2"), ("limit", "x")]
        = GetItems ⟨[⟨1, "a", "", "Doing", some 1, some 1⟩], 2, "Doing"⟩ none []) ∧
    ShouldBindPaging [("page", "2"), ("limit", "x")] = .ok ⟨2, 2, 2⟩ :=
  ⟨(paging_unused_when_bound ⟨[⟨1, "a", "", "Doing", some 1, some 1⟩], 2, "Doing"⟩ none
      [("page", "2"), ("limit", "x")]).1, by decide⟩

/-! ## Identifiers are unique and stable -/

/-- Every request leaves the old rows in place, each with its id and `created_at`, and adds
at most one row, whose id was not stored before. -/
theorem serve_rows (db : DB) (now : Nat) (fault : Option String) (req : Request) :
    ∃ (f : TodoItem → TodoItem) (extra : List TodoItem),
      (∀ r, (f r).Id = r.Id ∧ (f r).CreatedAt = r.CreatedAt) ∧
      (serve db now fault req).2.rows = db.rows.map f ++ extra ∧
      (extra = [] ∨ ∃ x, extra = [x] ∧ ∀ r ∈ db.rows, r.Id ≠ x.Id) := by
  have hsame : ∀ db1 : DB, db1.rows = db.rows →
      ∃ (f : TodoItem → TodoItem) (extra : List TodoItem),
        (∀ r, (f r).Id = r.Id ∧ (f r).CreatedAt = r.CreatedAt) ∧
        db1.rows = db.rows.map f ++ extra ∧
        (extra = [] ∨ ∃ x, extra = [x] ∧ ∀ r ∈ db.rows, r.Id ≠ x.Id) := by
    intro db1 h
    exact ⟨id, [], fun r => ⟨rfl, rfl⟩, by simp [h], Or.inl rfl⟩
  have hupd : ∀ (id : Int) (set : List (Column × String)) (db1 : DB),
      db.Updates now fault id set = .ok db1 →
      ∃ (f : TodoItem → TodoItem) (extra : List TodoItem),
        (∀ r, (f r).Id = r.Id ∧ (f r).CreatedAt = r.CreatedAt) ∧
        db1.rows = db.rows.map f ++ extra ∧
        (extra = [] ∨ ∃ x, extra = [x] ∧ ∀ r ∈ db.rows, r.Id ≠ x.Id) := by
    intro id set db1 h
    refine ⟨stepRow now id set, [],
      fun r => ⟨stepRow_Id now id set r, stepRow_CreatedAt now id set r⟩, ?_, Or.inl rfl⟩
    rw [Updates_ok db db1 now fault id set h]
    simp
  cases req with
  | list query => exact hsame _ rfl
  | get param => exact hsame _ rfl
  | create body =>
    simp only [serve, CreateItem]
    cases hb : ShouldBindCreation body with
    | error e => exact hsame _ rfl
    | ok data =>
      simp only []
      cases hc : db.Create now fault data with
      | error e => exact hsame _ rfl
      | ok res =>
        obtain ⟨data1, db1⟩ := res
        obtain ⟨hnew, _, hrows, _⟩ := Create_ok db db1 now fault data data1 hc
        refine ⟨id, [newRow db now data1.Id data], fun r => ⟨rfl, rfl⟩, ?_, Or.inr ⟨_, rfl, hnew⟩⟩
        simp [hrows]
  | update param body =>
    simp only [serve, UpdateItemByID]
    cases Atoi param with
    | error e => exact hsame _ rfl
    | ok id =>
      simp only []
      cases ShouldBindUpdate body with
      | error e => exact hsame _ rfl
      | ok data =>
        simp only []
        cases hu : db.Updates now fault id (ConvertToAssignments data) with
        | error e => exact hsame _ rfl
        | ok db1 => exact hupd id _ db1 hu
  | delete param =>
    simp only [serve, DeleteItemByID]
    cases Atoi param with
    | error e => exact hsame _ rfl
    | ok id =>
      simp only []
      cases hu : db.Updates now fault id [(Column.status, "Deleted")] with
      | error e => exact hsame _ rfl
      | ok db1 => exact hupd id _ db1 hu

/-- Claim C10.  Items are never destroyed and ids are stable and unique: for every store whose
ids are pairwise distinct and every request to one of the five handlers (at any time,
with or without a fault of the engine), the ids of the resulting store are pairwise
distinct, and every item stored before is still stored, in the same place, with the
same id and the same `created_at`. -/
theorem ids_unique_and_stable (db : DB) (now : Nat) (fault : Option String) (req : Request)
    (hnd : db.ids.Nodup) :
    (serve db now fault req).2.ids.Nodup ∧
    (∀ id ∈ db.ids, id ∈ (serve db now fault req).2.ids) ∧
    (∀ (i : Nat) (r : TodoItem), db.rows[i]? = some r →
      ∃ r1, (serve db now fault req).2.rows[i]? = some r1 ∧
        r1.Id = r.Id ∧ r1.CreatedAt = r.CreatedAt) := by
  obtain ⟨f, extra, hf, hrows, hextra⟩ := serve_rows db now fault req
  have hids : (serve db now fault req).2.ids = db.ids ++ extra.map (fun r => r.Id) := by
    unfold DB.ids
    rw [hrows, List.map_append, List.map_map]
    congr 1
    apply List.map_congr_left
    intro r _
    exact (hf r).1
  refine ⟨?_, ?_, ?_⟩
  · rw [hids]
    rcases hextra with h | ⟨x, h, hx⟩
    · subst h
      simpa using hnd
    · subst h
      rw [List.nodup_append]
      refine ⟨hnd, by simp, ?_⟩
      intro a ha hb
      simp only [List.map_cons, List.map_nil, List.mem_singleton] at hb
      obtain ⟨r, hr, hra⟩ := List.mem_map.mp ha
      exact hx r hr (hra.trans hb)
  · intro id hid
    rw [hids]
    exact List.mem_append_left _ hid
  · intro i r hi
    refine ⟨f r, ?_, (hf r).1, (hf r).2⟩
    rw [hrows]
    have hlt : i < (db.rows.map f).length := by
      rw [List.length_map]
      exact (List.getElem?_eq_some.mp hi).1
    rw [List.getElem?_append_left hlt, List.getElem?_map, hi]
    rfl

theorem ids_unique_and_stable_witness :
    (serve ⟨[⟨1, "a", "", "Doing", some 1, some 1⟩], 2, "Doing"⟩ 20 none
        (.create (.ok ⟨some "b", none, none⟩))).2.ids.Nodup ∧
    (∀ id ∈ DB.ids ⟨[⟨1, "a", "", "Doing", some 1, some 1⟩], 2, "Doing"⟩,
      id ∈ (serve ⟨[⟨1, "a", "", "Doing", some 1, some 1⟩], 2, "Doing"⟩ 20 none
        (.create (.ok ⟨some "b", none, none⟩))).2.ids) ∧
    (∀ (i : Nat) (r : TodoItem),
      (DB.rows ⟨[⟨1, "a", "", "Doing", some 1, some 1⟩], 2, "Doing"⟩)[i]? = some r →
      ∃ r1, (serve ⟨[⟨1, "a", "", "Doing", some 1, some 1⟩], 2, "Doing"⟩ 20 none
          (.create (.ok ⟨some "b", none, none⟩))).2.rows[i]? = some r1 ∧
        r1.Id = r.Id ∧ r1.CreatedAt = r.CreatedAt) :=
  ids_unique_and_stable ⟨[⟨1, "a", "", "Doing", some 1, some 1⟩], 2, "Doing"⟩ 20 none
    (.create (.ok ⟨some "b", none, none⟩)) (by decide)

end TodoApi
